import Mathlib

/-!
Shallow embedding of the trace-event stream renderer in src/go/ui/stream.go
(package ui of the usercorn repository).

Conventions of the embedding:
* Go machine integers become Nat; the only arithmetic that can overflow in
  the modelled code is the 64-bit program-counter addition in update()
  (s.PC += uint64(o.Size)), rendered here as addition modulo 2 ^ 64.
* The output writer io.Writer becomes an explicit List String of the strings
  written by the successive Fprintf calls (each written string keeps its
  trailing newline); stateful methods become functions from the state to a
  pair of the new state and the written output.
* All strings produced by the modelled code are ASCII, so Go byte length
  len(s) coincides with String.length.
* trace.Op values become the inductive type Op below, with exactly the
  fields the modelled code reads.
-/

/-- The event type fed to the renderer (trace.Op variants used by stream.go),
with the fields stream.go reads: OpFrame.Ops, OpKeyframe.Ops, OpJmp.Addr,
OpStep.Size, OpReg.Num/Val, OpSpReg.Num/Val, OpMemMap.Addr/Size/Prot/Zero,
OpMemUnmap.Addr/Size, OpMemWrite.Addr/Data, OpMemRead.Addr/Data,
OpSyscall.Num/Args/Ret/Ops, OpExit. -/
inductive Op where
  | frame (ops : List Op)
  | keyframe (ops : List Op)
  | jmp (addr : Nat)
  | step (size : Nat)
  | reg (num : Nat) (val : Nat)
  | spreg (num : Nat) (val : List Nat)
  | memMap (addr : Nat) (size : Nat) (prot : Nat) (zeroFl : Nat)
  | memUnmap (addr : Nat) (size : Nat)
  | memWrite (addr : Nat) (data : List Nat)
  | memRead (addr : Nat) (data : List Nat)
  | syscall (num : Nat) (args : List Nat) (ret : Nat) (ops : List Op)
  | opExit
deriving Repr

/-- Modelled from the spec: models.MemSim is an external collaborator whose
source is not under src/. Per the spec it exposes map(address, size,
protection, zero-fill), unmap(address, size), write(address, bytes) and
read(address, destination-buffer) over a sparse address space; reading an
address that is unmapped (or never written) yields 0, matching the
zero-initialized Go destination buffer. -/
structure MemSim where
  mapped : Nat → Bool
  bytes : Nat → Nat

def MemSim.empty : MemSim := ⟨fun _ => false, fun _ => 0⟩

def MemSim.mmap (m : MemSim) (addr size : Nat) (_prot : Nat) (zeroFill : Bool) : MemSim :=
  { mapped := fun a => if addr ≤ a ∧ a < addr + size then true else m.mapped a,
    bytes := fun a => if zeroFill = true ∧ addr ≤ a ∧ a < addr + size then 0 else m.bytes a }

def MemSim.unmap (m : MemSim) (addr size : Nat) : MemSim :=
  { m with mapped := fun a => if addr ≤ a ∧ a < addr + size then false else m.mapped a }

def MemSim.write (m : MemSim) (addr : Nat) (data : List Nat) : MemSim :=
  { m with bytes := fun a =>
      if addr ≤ a ∧ a < addr + data.length then data.getD (a - addr) 0 else m.bytes a }

def MemSim.read (m : MemSim) (addr size : Nat) : List Nat :=
  (List.range size).map fun i =>
    if m.mapped (addr + i) = true then m.bytes (addr + i) else 0

/-- Architecture metadata collaborator (models.Arch): id-to-name register
table, designated stack-pointer register id, and address width in bits. -/
structure Arch where
  regNames : List (Nat × String)
  sp : Nat
  bits : Nat

/-- Immutable session configuration: the architecture and the disassembler
collaborator models.Disas (bytes and address to text, or failure),
modelled as an Option-valued function since its source is not under src/. -/
structure Cfg where
  arch : Arch
  disas : List Nat → Nat → Option String

/-- Longest register name, as computed by the loop in NewStreamUI. -/
def longestName (a : Arch) : Nat :=
  a.regNames.foldl (fun acc p => if p.2.length > acc then p.2.length else acc) 0

/-- Fixed instruction column width (s.inscol = 60 in NewStreamUI). -/
def inscol : Nat := 60

/-- Register column width (s.regcol = longest + 5 + arch.Bits/4). -/
def regcol (a : Arch) : Nat := longestName a + 5 + a.bits / 4

/-- pad from stream.go: the padding needed to bring s to width w, or the
empty string when s already meets or exceeds w. -/
def pad (s : String) (w : Nat) : String :=
  if s.length ≥ w then "" else String.mk (List.replicate (w - s.length) ' ')

def spaces (n : Nat) : String := String.mk (List.replicate n ' ')

/-- Minimal lowercase hex digits of n (Go verb x on an unsigned integer). -/
def hexPlain (n : Nat) : String := String.mk (Nat.toDigits 16 n)

/-- Go format verb #x: 0x followed by minimal lowercase hex digits. -/
def hexAlt (n : Nat) : String := "0x" ++ hexPlain n

/-- Go verb x applied to one byte of a byte slice: exactly two hex digits. -/
def byteHex (b : Nat) : String :=
  let s := hexPlain b
  if s.length = 1 then "0" ++ s else s

/-- Go verb x applied to a byte slice: two hex digits per byte, concatenated. -/
def bytesHex (bs : List Nat) : String := String.join (bs.map byteHex)

/-- Go right-justification of a string to width w (format %Ns). -/
def rightJust (s : String) (w : Nat) : String := spaces (w - s.length) ++ s

/-- Go format %#0Mx: 0x prefix, zero padding to total width w. -/
def hexAltPad (v w : Nat) : String :=
  let d := hexPlain v
  "0x" ++ String.mk (List.replicate (w - 2 - d.length) '0') ++ d

/-- Register-name resolution with decimal fallback (strconv.Itoa). -/
def regName (a : Arch) (num : Nat) : String :=
  match a.regNames.lookup num with
  | some n => n
  | none => toString num

/-- One register-change cell, Sprintf with s.regfmt (format %Ns = %#0Mx,
N the longest register name, M arch.Bits/4). -/
def regFmt (a : Arch) (num val : Nat) : String :=
  rightJust (regName a num) (longestName a) ++ " = " ++ hexAltPad val (a.bits / 4)

/-- Renderer shadow state plus the batching fields of struct StreamUI:
Regs, SpRegs, PC, SP, Mem, pending (the size of the unflushed OpStep,
the only field of it the code reads) and the side-effect queue. -/
structure StreamUI where
  regs : Nat → Option Nat
  spRegs : Nat → Option (List Nat)
  pc : Nat
  sp : Nat
  mem : MemSim
  pending : Option Nat
  effects : List Op

/-- Initial state as built by NewStreamUI: empty maps, fresh MemSim,
zero-valued PC and SP, nothing pending. -/
def StreamUI.init : StreamUI :=
  { regs := fun _ => none, spRegs := fun _ => none, pc := 0, sp := 0,
    mem := MemSim.empty, pending := none, effects := [] }

def UINT64 : Nat := 2 ^ 64

mutual
/-- update() from stream.go: applies one op's state changes to the shadow
state; OpSyscall recurses into its nested ops, unmatched variants
(frame, keyframe, memRead, exit) change nothing. -/
def StreamUI.update (arch : Arch) (st : StreamUI) : Op → StreamUI
  | .jmp addr => { st with pc := addr }
  | .step size => { st with pc := (st.pc + size) % UINT64 }
  | .reg num val =>
      let st1 := if num = arch.sp then { st with sp := val } else st
      { st1 with regs := fun k => if k = num then some val else st1.regs k }
  | .spreg num val =>
      { st with spRegs := fun k => if k = num then some val else st.spRegs k }
  | .memMap addr size prot zeroFill =>
      { st with mem := st.mem.mmap addr size prot (zeroFill != 0) }
  | .memUnmap addr size => { st with mem := st.mem.unmap addr size }
  | .memWrite addr data => { st with mem := st.mem.write addr data }
  | .syscall _ _ _ ops => StreamUI.updateList arch st ops
  | _ => st

/-- The loop for v in ops applying update to each, in order. -/
def StreamUI.updateList (arch : Arch) (st : StreamUI) : List Op → StreamUI
  | [] => st
  | op :: rest => StreamUI.updateList arch (StreamUI.update arch st op) rest
end

/-- The effects-collection loop of insPrint: one left-to-right pass over the
queued effects producing the register-change cells, the memory-access cells,
and the lines written during the pass (the unimplemented-special-register
marker for OpSpReg). -/
def collectEffects (a : Arch) : List Op → List String × List String × List String
  | [] => ([], [], [])
  | op :: rest =>
      let c := collectEffects a rest
      match op with
      | .reg num val => (regFmt a num val :: c.1, c.2.1, c.2.2)
      | .spreg _ _ => (c.1, c.2.1, "<unimplemented special register>\n" :: c.2.2)
      | .memRead addr _ => (c.1, ("R " ++ hexPlain addr) :: c.2.1, c.2.2)
      | .memWrite addr _ => (c.1, ("W " ++ hexPlain addr) :: c.2.1, c.2.2)
      | _ => c

/-- Continuation lines for the register changes beyond the first, pairing
entry i with memory cell i+1 when it exists (the loop over regs[1:]). -/
def contLines (inspad : String) (mems : List String) : Nat → List String → List String
  | _, [] => []
  | i, r :: rs =>
      (if i + 1 < mems.length
        then inspad ++ " + " ++ r ++ " + " ++ mems.getD (i + 1) "" ++ "\n"
        else inspad ++ " + " ++ r ++ "\n") :: contLines inspad mems (i + 1) rs

/-- The instruction text of insPrint: bytes read from the memory simulation
at pc, disassembled; on failure the fallback address-colon-raw-hex form. -/
def insText (cfg : Cfg) (mem : MemSim) (pc size : Nat) : String :=
  let insmem := mem.read pc size
  match cfg.disas insmem pc with
  | none => hexAlt pc ++ ": " ++ bytesHex insmem
  | some dis => dis

/-- The first register-change column of the primary line: the first cell
padded to the register column width, or all blanks when there is none. -/
def regColumn (a : Arch) (regs : List String) : String :=
  match regs with
  | [] => spaces (regcol a)
  | r :: _ => r ++ pad r (regcol a)

/-- The first memory-access cell, or the empty string when there is none
(the zero value of Go's var m string). -/
def memColumn (mems : List String) : String :=
  match mems with
  | [] => ""
  | x :: _ => x

/-- The primary output line of insPrint: padded instruction text, separator,
register column, and the memory column with its separator only when the
memory cell is nonempty. -/
def primaryLine (a : Arch) (ins0 : String) (regs mems : List String) : String :=
  let reg := regColumn a regs
  let m := memColumn mems
  let ins := ins0 ++ pad ins0 inscol
  if m = "" then ins ++ " | " ++ reg ++ "\n"
  else ins ++ " | " ++ reg ++ " | " ++ m ++ "\n"

/-- The continuation lines for register changes beyond the first (the
len(regs) greater than 1 branch of insPrint). -/
def extraLines (mems : List String) (regs : List String) : List String :=
  match regs with
  | _ :: r1 :: rest => contLines (spaces inscol) mems 0 (r1 :: rest)
  | _ => []

/-- insPrint() from stream.go: the lines written when rendering one
instruction at pc of the given byte size with the given queued effects. -/
def insPrint (cfg : Cfg) (mem : MemSim) (pc size : Nat) (effects : List Op) : List String :=
  let c := collectEffects cfg.arch effects
  c.2.2 ++ primaryLine cfg.arch (insText cfg mem pc size) c.1 c.2.1 :: extraLines c.2.1 c.1

/-- blockPrint() from stream.go: a blank line then the block address. -/
def blockPrint (addr : Nat) : List String := ["\n" ++ hexAlt addr ++ "\n"]

/-- sysPrint() from stream.go: the single syscall summary line. -/
def sysPrint (num : Nat) (args : List Nat) (ret : Nat) : List String :=
  ["syscall(" ++ toString num ++ ", [" ++
    String.intercalate ", " (args.map hexAlt) ++ "]) = " ++ toString ret ++ "\n"]

/-- Flush() from stream.go: with a pending instruction, render it at the
current PC with the queued effects, then apply the pending step, then each
queued effect in order, then clear queue and pending; otherwise a no-op. -/
def StreamUI.Flush (cfg : Cfg) (st : StreamUI) : StreamUI × List String :=
  match st.pending with
  | none => (st, [])
  | some size =>
      let out := insPrint cfg st.mem st.pc size st.effects
      let st1 := StreamUI.update cfg.arch st (.step size)
      let st2 := StreamUI.updateList cfg.arch st1 st.effects
      ({ st2 with effects := [], pending := none }, out)

/-- The body of the per-op loop in Feed(): boundaries (jmp, step, syscall)
flush first; everything else is appended to the side-effect queue. -/
def StreamUI.feedOne (cfg : Cfg) (st : StreamUI) (op : Op) : StreamUI × List String :=
  match op with
  | .jmp a =>
      let r := StreamUI.Flush cfg st
      (StreamUI.update cfg.arch r.1 (.jmp a), r.2 ++ blockPrint a)
  | .step size =>
      let r := StreamUI.Flush cfg st
      ({ r.1 with pending := some size }, r.2)
  | .syscall num args ret _ =>
      let r := StreamUI.Flush cfg st
      (r.1, r.2 ++ sysPrint num args ret)
  | _ => ({ st with effects := st.effects ++ [op] }, [])

/-- The loop of Feed() over the list selected by its outer switch. -/
def StreamUI.feedList (cfg : Cfg) (st : StreamUI) : List Op → StreamUI × List String
  | [] => (st, [])
  | op :: rest =>
      let r1 := StreamUI.feedOne cfg st op
      let r2 := StreamUI.feedList cfg r1.1 rest
      (r2.1, r1.2 ++ r2.2)

/-- Feed() from stream.go: an OpFrame is flattened one level into the loop,
an OpKeyframe is flushed then applied silently, and any other op runs the
loop body once on itself. -/
def StreamUI.Feed (cfg : Cfg) (st : StreamUI) (op : Op) : StreamUI × List String :=
  match op with
  | .frame ops => StreamUI.feedList cfg st ops
  | .keyframe ops =>
      let r := StreamUI.Flush cfg st
      (StreamUI.updateList cfg.arch r.1 ops, r.2)
  | _ => StreamUI.feedOne cfg st op

/-- Feeding a list of events one by one at top level (used to state the
flattening equivalence of frames). -/
def StreamUI.feedSeq (cfg : Cfg) (st : StreamUI) : List Op → StreamUI × List String
  | [] => (st, [])
  | op :: rest =>
      let r1 := StreamUI.Feed cfg st op
      let r2 := StreamUI.feedSeq cfg r1.1 rest
      (r2.1, r1.2 ++ r2.2)

mutual
/-- Modelled from the spec's words (round-trip property of section 8): the
program-counter fold over one event, where a StepEvent adds its byte size to
the current PC (64-bit unsigned), a JumpEvent replaces the PC with its
target, a SyscallEvent recurses into its nested events and every other
event leaves the PC unchanged. -/
def specPCop (pc : Nat) : Op → Nat
  | .step size => (pc + size) % UINT64
  | .jmp addr => addr
  | .syscall _ _ _ ops => specPCs pc ops
  | _ => pc

/-- Modelled from the spec's words: the program-counter fold over an event
sequence, evaluated in stream order. -/
def specPCs (pc : Nat) : List Op → Nat
  | [] => pc
  | op :: rest => specPCs (specPCop pc op) rest
end

/-- A small concrete architecture used by the concrete instances below:
two registers, register 1 is the stack pointer, 64-bit addresses. -/
def arch0 : Arch := { regNames := [(0, "r0"), (1, "r1")], sp := 1, bits := 64 }

/-- A concrete session configuration whose disassembler always fails,
so rendering always takes the raw-hex fallback path. -/
def cfg0 : Cfg := { arch := arch0, disas := fun _ _ => none }

/-- Shared helper: Flush on a state with no pending instruction is a no-op
that writes nothing. -/
theorem Flush_of_pending_none (cfg : Cfg) (st : StreamUI) (h : st.pending = none) :
    StreamUI.Flush cfg st = (st, []) := by
  simp [StreamUI.Flush, h]

/-- Shared helper: after any Flush, no instruction is pending. -/
theorem Flush_pending_none (cfg : Cfg) (st : StreamUI) :
    (StreamUI.Flush cfg st).1.pending = none := by
  cases h : st.pending <;> simp [StreamUI.Flush, h]

mutual
/-- The program counter of the shadow state after update equals the
spec-side fold over one event. -/
theorem StreamUI.update_pc (arch : Arch) (st : StreamUI) (op : Op) :
    (StreamUI.update arch st op).pc = specPCop st.pc op := by
  cases op with
  | frame ops => rfl
  | keyframe ops => rfl
  | jmp addr => rfl
  | step size => rfl
  | reg num val => simp only [StreamUI.update, specPCop]; split <;> rfl
  | spreg num val => rfl
  | memMap addr size prot zeroFl => rfl
  | memUnmap addr size => rfl
  | memWrite addr data => rfl
  | memRead addr data => rfl
  | syscall num args ret ops =>
      simp only [StreamUI.update, specPCop]
      exact StreamUI.updateList_pc arch st ops
  | opExit => rfl

/-- The program counter of the shadow state after a sequence of updates
equals the spec-side fold over the sequence. -/
theorem StreamUI.updateList_pc (arch : Arch) (st : StreamUI) (ops : List Op) :
    (StreamUI.updateList arch st ops).pc = specPCs st.pc ops := by
  cases ops with
  | nil => rfl
  | cons op rest =>
      simp only [StreamUI.updateList, specPCs]
      rw [← StreamUI.update_pc arch st op]
      exact StreamUI.updateList_pc arch (StreamUI.update arch st op) rest
end

/-- C7: for every event sequence applied through the State Updater starting
from the current program counter, the resulting shadow-state PC equals the
fold of the sequence in stream order where a StepEvent adds its byte size
(64-bit unsigned), a JumpEvent replaces the PC with its target, a
SyscallEvent recurses into its nested events and every other event leaves
the PC unchanged. -/
theorem claim7_pc_roundtrip (arch : Arch) (st : StreamUI) (ops : List Op) :
    (StreamUI.updateList arch st ops).pc = specPCs st.pc ops :=
  StreamUI.updateList_pc arch st ops

/-- C4: Flush with a pending instruction renders it at the current
(pre-instruction) PC with its byte size and the queued side effects, then
applies the pending step to the shadow state, then each queued side effect
in queue order, then clears both the queue and the pending instruction;
Flush with no pending instruction writes nothing and changes no state. -/
theorem claim4_flush_contract (cfg : Cfg) (st : StreamUI) :
    (st.pending = none → StreamUI.Flush cfg st = (st, [])) ∧
    ∀ size, st.pending = some size →
      StreamUI.Flush cfg st =
        ({ StreamUI.updateList cfg.arch
             (StreamUI.update cfg.arch st (.step size)) st.effects
           with effects := [], pending := none },
         insPrint cfg st.mem st.pc size st.effects) := by
  constructor
  · intro h
    simp [StreamUI.Flush, h]
  · intro size h
    simp [StreamUI.Flush, h]

/-- A concrete state with a pending one-byte instruction and one queued
side-effect event. -/
def stP : StreamUI := { StreamUI.init with pending := some 1, effects := [Op.reg 0 5] }

/-- Witness for C4 at concrete states with and without a pending
instruction. -/
theorem claim4_flush_contract_witness :
    StreamUI.Flush cfg0 StreamUI.init = (StreamUI.init, []) ∧
    StreamUI.Flush cfg0 stP =
      ({ StreamUI.updateList cfg0.arch
           (StreamUI.update cfg0.arch stP (.step 1)) stP.effects
         with effects := [], pending := none },
       insPrint cfg0 stP.mem stP.pc 1 stP.effects) :=
  ⟨(claim4_flush_contract cfg0 StreamUI.init).1 rfl,
   (claim4_flush_contract cfg0 stP).2 1 rfl⟩

/-- C5: a second Flush right after a Flush, with no Feed in between, writes
nothing and changes nothing. -/
theorem claim5_flush_idempotent (cfg : Cfg) (st : StreamUI) :
    StreamUI.Flush cfg (StreamUI.Flush cfg st).1 = ((StreamUI.Flush cfg st).1, []) :=
  Flush_of_pending_none cfg (StreamUI.Flush cfg st).1 (Flush_pending_none cfg st)

/-- C10: Flush with no pending instruction leaves the side-effect queue
(and everything else) untouched; queued effects survive jump and syscall
boundaries fed while nothing is pending, and are rendered with, then
applied together with, the next StepEvent that gets flushed. -/
theorem claim10_effects_survive (cfg : Cfg) (st : StreamUI) (h : st.pending = none) :
    StreamUI.Flush cfg st = (st, []) ∧
    (∀ a, (StreamUI.Feed cfg st (.jmp a)).1.effects = st.effects) ∧
    (∀ num args ret ops,
      (StreamUI.Feed cfg st (.syscall num args ret ops)).1.effects = st.effects) ∧
    ∀ size,
      StreamUI.Feed cfg st (.step size) = ({ st with pending := some size }, []) ∧
      StreamUI.Flush cfg { st with pending := some size } =
        ({ StreamUI.updateList cfg.arch
             (StreamUI.update cfg.arch { st with pending := some size } (.step size))
             st.effects
           with effects := [], pending := none },
         insPrint cfg st.mem st.pc size st.effects) := by
  have hf : StreamUI.Flush cfg st = (st, []) := Flush_of_pending_none cfg st h
  refine ⟨hf, ?_, ?_, ?_⟩
  · intro a
    simp [StreamUI.Feed, StreamUI.feedOne, hf]
    rfl
  · intro num args ret ops
    simp [StreamUI.Feed, StreamUI.feedOne, hf]
  · intro size
    refine ⟨?_, ?_⟩
    · simp [StreamUI.Feed, StreamUI.feedOne, hf]
    · rfl

/-- A concrete state with one queued side effect and nothing pending. -/
def stE : StreamUI := { StreamUI.init with effects := [Op.reg 0 5] }

/-- Witness for C10: feeding a StepEvent to a state with queued effects and
nothing pending keeps the queued effects for that step. -/
theorem claim10_effects_survive_witness :
    StreamUI.Feed cfg0 stE (.step 4) = ({ stE with pending := some 4 }, []) :=
  ((claim10_effects_survive cfg0 stE rfl).2.2.2 4).1

/-- True of every event except the frame and keyframe batch variants. -/
def notBatch : Op → Bool
  | .frame _ => false
  | .keyframe _ => false
  | _ => true

/-- Feed on a non-batch event runs the per-op loop body once on it. -/
theorem Feed_eq_feedOne (cfg : Cfg) (st : StreamUI) (op : Op) (h : notBatch op = true) :
    StreamUI.Feed cfg st op = StreamUI.feedOne cfg st op := by
  cases op with
  | frame ops => simp [notBatch] at h
  | keyframe ops => simp [notBatch] at h
  | _ => rfl

/-- C2 counterexample: a FrameEvent nested inside a FrameEvent is not
processed as if fed at top level; the code queues the inner frame as a
side effect, so no instruction becomes pending, while feeding the
contained event at top level makes its step pending. -/
theorem claim2_counterexample :
    (StreamUI.Feed cfg0 StreamUI.init (.frame [.frame [.step 4]])).1.pending ≠
      (StreamUI.feedSeq cfg0 StreamUI.init [.frame [.step 4]]).1.pending := by
  decide

/-- C2 (amended): feeding a FrameEvent is equivalent to feeding each of its
contained events in order, provided no contained event is itself a
FrameEvent or KeyframeEvent; the flattening is one level deep, not
recursive. -/
theorem claim2_frame_flatten (cfg : Cfg) (st : StreamUI) (ops : List Op)
    (h : ∀ e ∈ ops, notBatch e = true) :
    StreamUI.Feed cfg st (.frame ops) = StreamUI.feedSeq cfg st ops := by
  show StreamUI.feedList cfg st ops = StreamUI.feedSeq cfg st ops
  induction ops generalizing st with
  | nil => rfl
  | cons op rest ih =>
      simp only [StreamUI.feedList, StreamUI.feedSeq,
        Feed_eq_feedOne cfg st op (h op (List.mem_cons_self op rest))]
      rw [ih (StreamUI.feedOne cfg st op).1 (fun e he => h e (List.mem_cons_of_mem op he))]

/-- A concrete frame content with a step boundary and a register effect. -/
def frameOps : List Op := [Op.step 4, Op.reg 0 1, Op.step 4]

/-- Witness for the amended C2 at a concrete frame. -/
theorem claim2_frame_flatten_witness :
    StreamUI.Feed cfg0 StreamUI.init (.frame frameOps) =
      StreamUI.feedSeq cfg0 StreamUI.init frameOps :=
  claim2_frame_flatten cfg0 StreamUI.init frameOps (by decide)

/-- C3 counterexample: with no instruction pending and an empty queue, a
register-write event grows the side-effect queue, contradicting the claim
that non-boundary events mutate the queue only in the pending state. -/
theorem claim3_counterexample :
    StreamUI.init.pending = none ∧
    StreamUI.init.effects.length = 0 ∧
    (StreamUI.Feed cfg0 StreamUI.init (.reg 0 5)).1.effects.length = 1 := by
  refine ⟨rfl, rfl, ?_⟩
  decide

/-- C3 (amended): in both consumer states (pending or not), a non-boundary
event only appends itself to the side-effect queue, changes nothing else in
the shadow state, and writes no output; in particular the queue also grows
when no instruction is pending. -/
theorem claim3_nonboundary_queue (cfg : Cfg) (st : StreamUI) :
    (∀ num val, StreamUI.Feed cfg st (.reg num val) =
      ({ st with effects := st.effects ++ [.reg num val] }, [])) ∧
    (∀ num val, StreamUI.Feed cfg st (.spreg num val) =
      ({ st with effects := st.effects ++ [.spreg num val] }, [])) ∧
    (∀ a sz p z, StreamUI.Feed cfg st (.memMap a sz p z) =
      ({ st with effects := st.effects ++ [.memMap a sz p z] }, [])) ∧
    (∀ a sz, StreamUI.Feed cfg st (.memUnmap a sz) =
      ({ st with effects := st.effects ++ [.memUnmap a sz] }, [])) ∧
    (∀ a d, StreamUI.Feed cfg st (.memWrite a d) =
      ({ st with effects := st.effects ++ [.memWrite a d] }, [])) ∧
    (∀ a d, StreamUI.Feed cfg st (.memRead a d) =
      ({ st with effects := st.effects ++ [.memRead a d] }, [])) ∧
    StreamUI.Feed cfg st .opExit = ({ st with effects := st.effects ++ [.opExit] }, []) :=
  ⟨fun _ _ => rfl, fun _ _ => rfl, fun _ _ _ _ => rfl, fun _ _ => rfl,
   fun _ _ => rfl, fun _ _ => rfl, rfl⟩

/-- C6: a KeyframeEvent first flushes any pending instruction, then applies
every contained event to the shadow state through the State Updater,
writing nothing beyond what the flush wrote; and, concretely, a memory
byte written through a keyframe is read back when the next flushed
instruction is disassembled, the keyframe itself contributing zero output
lines. -/
theorem claim6_keyframe (cfg : Cfg) (st : StreamUI) (ops : List Op) :
    StreamUI.Feed cfg st (.keyframe ops) =
      (StreamUI.updateList cfg.arch (StreamUI.Flush cfg st).1 ops,
       (StreamUI.Flush cfg st).2) ∧
    (StreamUI.Feed cfg0 { StreamUI.init with pc := 8192 }
        (.keyframe [.memMap 8192 1 0 0, .memWrite 8192 [170]])).2 = [] ∧
    (StreamUI.Feed cfg0 { StreamUI.init with pc := 8192 }
        (.keyframe [.memMap 8192 1 0 0, .memWrite 8192 [170]])).1.mem.read 8192 1 = [170] ∧
    (StreamUI.Flush cfg0
        (StreamUI.Feed cfg0
          (StreamUI.Feed cfg0 { StreamUI.init with pc := 8192 }
            (.keyframe [.memMap 8192 1 0 0, .memWrite 8192 [170]])).1
          (.step 1)).1).2 =
      ["0x2000: aa" ++ pad "0x2000: aa" inscol ++ " | " ++ spaces (regcol arch0) ++ "\n"] := by
  refine ⟨rfl, rfl, by decide, by decide⟩

/-- A concrete state whose memory has one page mapped at 0x1000 and whose
program counter sits at 0x1000. -/
def stC1 : StreamUI :=
  { StreamUI.init with pc := 4096, mem := MemSim.empty.mmap 4096 4096 7 true }

/-- A syscall event whose only nested event writes byte 0x90 at 0x1000. -/
def sysC1 : Op := .syscall 1 [] 0 [.memWrite 4096 [144]]

/-- C1, evaluated at the failing input: Feed renders the syscall line, but
the nested memory write is never applied to the shadow state (Feed's
OpSyscall case calls Flush and sysPrint only), so the byte at 0x1000 remains
0; applying the nested events through the State Updater, as the claim
requires, would make it 0x90; and the instruction subsequently flushed at
0x1000 is rendered from the unwritten byte 00, not from 0x90. -/
theorem claim1_syscall_state_bug :
    (StreamUI.Feed cfg0 stC1 sysC1).2 = sysPrint 1 [] 0 ∧
    (StreamUI.Feed cfg0 stC1 sysC1).1.mem.read 4096 1 = [0] ∧
    (StreamUI.updateList cfg0.arch stC1 [.memWrite 4096 [144]]).mem.read 4096 1 = [144] ∧
    (StreamUI.Flush cfg0
        (StreamUI.Feed cfg0 (StreamUI.Feed cfg0 stC1 sysC1).1 (.step 1)).1).2 =
      ["0x1000: 00" ++ pad "0x1000: 00" inscol ++ " | " ++ spaces (regcol arch0) ++ "\n"] := by
  refine ⟨rfl, by decide, by decide, by decide⟩

/-- C8: when the disassembler fails on the bytes read at the program
counter, the instruction text falls back to the raw address-colon-hex form
and rendering still emits its lines; nothing is aborted. -/
theorem claim8_disas_fallback (cfg : Cfg) (mem : MemSim) (pc size : Nat) (effects : List Op)
    (h : cfg.disas (mem.read pc size) pc = none) :
    insText cfg mem pc size = hexAlt pc ++ ": " ++ bytesHex (mem.read pc size) ∧
    insPrint cfg mem pc size effects ≠ [] := by
  constructor
  · simp [insText, h]
  · simp [insPrint]

/-- Witness for C8 with the always-failing disassembler. -/
theorem claim8_disas_fallback_witness :
    insText cfg0 MemSim.empty 0 1 = hexAlt 0 ++ ": " ++ bytesHex (MemSim.empty.read 0 1) ∧
    insPrint cfg0 MemSim.empty 0 1 [] ≠ [] :=
  claim8_disas_fallback cfg0 MemSim.empty 0 1 [] rfl

/-- True exactly of register-write events. -/
def isRegWrite : Op → Bool
  | .reg _ _ => true
  | _ => false

/-- True exactly of memory-access (read or write) events. -/
def isMemAccess : Op → Bool
  | .memRead _ _ => true
  | .memWrite _ _ => true
  | _ => false

/-- With no register-write effect queued, the collected register cells are
empty. -/
theorem collect_regs_nil (a : Arch) (effects : List Op)
    (h : ∀ e ∈ effects, isRegWrite e = false) :
    (collectEffects a effects).1 = [] := by
  induction effects with
  | nil => rfl
  | cons op rest ih =>
      have hop := h op (List.mem_cons_self op rest)
      have hr := ih fun e he => h e (List.mem_cons_of_mem op he)
      cases op with
      | frame ops => simpa [collectEffects] using hr
      | keyframe ops => simpa [collectEffects] using hr
      | jmp addr => simpa [collectEffects] using hr
      | step size => simpa [collectEffects] using hr
      | reg num val => simp [isRegWrite] at hop
      | spreg num val => simpa [collectEffects] using hr
      | memMap addr size prot zeroFl => simpa [collectEffects] using hr
      | memUnmap addr size => simpa [collectEffects] using hr
      | memWrite addr data => simpa [collectEffects] using hr
      | memRead addr data => simpa [collectEffects] using hr
      | syscall num args ret ops => simpa [collectEffects] using hr
      | opExit => simpa [collectEffects] using hr

/-- With no memory-access effect queued, the collected memory cells are
empty. -/
theorem collect_mems_nil (a : Arch) (effects : List Op)
    (h : ∀ e ∈ effects, isMemAccess e = false) :
    (collectEffects a effects).2.1 = [] := by
  induction effects with
  | nil => rfl
  | cons op rest ih =>
      have hop := h op (List.mem_cons_self op rest)
      have hr := ih fun e he => h e (List.mem_cons_of_mem op he)
      cases op with
      | frame ops => simpa [collectEffects] using hr
      | keyframe ops => simpa [collectEffects] using hr
      | jmp addr => simpa [collectEffects] using hr
      | step size => simpa [collectEffects] using hr
      | reg num val => simpa [collectEffects] using hr
      | spreg num val => simpa [collectEffects] using hr
      | memMap addr size prot zeroFl => simpa [collectEffects] using hr
      | memUnmap addr size => simpa [collectEffects] using hr
      | memWrite addr data => simp [isMemAccess] at hop
      | memRead addr data => simp [isMemAccess] at hop
      | syscall num args ret ops => simpa [collectEffects] using hr
      | opExit => simpa [collectEffects] using hr

/-- The blank string of n spaces has length n. -/
theorem spaces_length (n : Nat) : (spaces n).length = n := by
  simp [spaces, String.length]

/-- C9: the disassembly text is padded with spaces exactly up to the
instruction column width when shorter, and gets zero added spaces when its
length meets or exceeds the width; when there are no memory-access effects
the memory column and its separator are omitted entirely; when there are no
register effects the register column is still emitted, fully blank-padded. -/
theorem claim9_columns (cfg : Cfg) (mem : MemSim) (pc size : Nat) (effects : List Op) :
    (∀ s w, w ≤ s.length → pad s w = "") ∧
    (∀ s w, (s ++ pad s w).length = max s.length w) ∧
    ((∀ e ∈ effects, isMemAccess e = false) →
      insPrint cfg mem pc size effects =
        (collectEffects cfg.arch effects).2.2 ++
          (insText cfg mem pc size ++ pad (insText cfg mem pc size) inscol ++ " | " ++
              regColumn cfg.arch (collectEffects cfg.arch effects).1 ++ "\n")
            :: extraLines [] (collectEffects cfg.arch effects).1) ∧
    ((∀ e ∈ effects, isRegWrite e = false) →
      insPrint cfg mem pc size effects =
        (collectEffects cfg.arch effects).2.2 ++
          [primaryLine cfg.arch (insText cfg mem pc size) []
            (collectEffects cfg.arch effects).2.1] ∧
      regColumn cfg.arch (collectEffects cfg.arch effects).1 = spaces (regcol cfg.arch)) := by
  refine ⟨?_, ?_, ?_, ?_⟩
  · intro s w h
    simp [pad, h]
  · intro s w
    by_cases h : s.length ≥ w
    · simp [pad, h]
    · simp [pad, h, spaces_length]
      omega
  · intro h
    have hm := collect_mems_nil cfg.arch effects h
    simp [insPrint, primaryLine, memColumn, hm]
  · intro h
    have hr := collect_regs_nil cfg.arch effects h
    constructor
    · simp [insPrint, extraLines, hr]
    · simp [regColumn, hr]

/-- Witness for C9: each part applied at a concrete input. -/
theorem claim9_columns_witness :
    pad "abc" 2 = "" ∧
    ("a" ++ pad "a" 3).length = max "a".length 3 ∧
    insPrint cfg0 MemSim.empty 0 1 [Op.reg 0 5] =
      (collectEffects cfg0.arch [Op.reg 0 5]).2.2 ++
        (insText cfg0 MemSim.empty 0 1 ++ pad (insText cfg0 MemSim.empty 0 1) inscol ++
            " | " ++ regColumn cfg0.arch (collectEffects cfg0.arch [Op.reg 0 5]).1 ++ "\n")
          :: extraLines [] (collectEffects cfg0.arch [Op.reg 0 5]).1 ∧
    (insPrint cfg0 MemSim.empty 0 1 [Op.memRead 16 []] =
        (collectEffects cfg0.arch [Op.memRead 16 []]).2.2 ++
          [primaryLine cfg0.arch (insText cfg0 MemSim.empty 0 1) []
            (collectEffects cfg0.arch [Op.memRead 16 []]).2.1] ∧
      regColumn cfg0.arch (collectEffects cfg0.arch [Op.memRead 16 []]).1 =
        spaces (regcol cfg0.arch)) :=
  ⟨(claim9_columns cfg0 MemSim.empty 0 1 []).1 "abc" 2 (by decide),
   (claim9_columns cfg0 MemSim.empty 0 1 []).2.1 "a" 3,
   (claim9_columns cfg0 MemSim.empty 0 1 [Op.reg 0 5]).2.2.1 (by decide),
   (claim9_columns cfg0 MemSim.empty 0 1 [Op.memRead 16 []]).2.2.2 (by decide)⟩
